import Mathlib

/-!
# Scroll-synchronization core of vscode-shiki-markdown-preview

Shallow embedding of the two scroll-sync controllers:

* `ScrollSyncManager` (host side, `src/services/scroll-sync/scroll-sync-manager.ts`)
* `IntersectionBasedScrollSync` (render side, `src/webview/modules/scroll-sync.js`)

Conventions of the embedding:

* Line numbers and pixel offsets are modelled as `Int` (only comparisons and
  sign matter to the algorithms).
* A pending `setTimeout` timer is modelled as `Option Int` holding the instant
  at which it fires (`now + delay` at scheduling time).  `clearTimeout`
  becomes `none`.  In the JS source the handle field is not nulled when the
  timer fires, but a fired handle is behaviourally identical to a cleared
  one (clearing a dead handle is a no-op), so "pending timer with expiry"
  is a faithful state abstraction.
* Externally observable effects (messages posted across the channel, editor
  reveals, DOM scrolls) are collected in an output list per operation.
* The JS `Map` backing `visibleElements` is modelled as an insertion-ordered
  association list with unique keys; `Map.set` updates in place, `Map.delete`
  removes, iteration follows list order.
-/

/-- Which side armed the sync lock (`_syncSource` / `syncSource`). -/
inductive SyncSource where
  | editor
  | preview
deriving DecidableEq, Repr

/-- The sync block window `_SYNC_BLOCK_MS` / `SYNC_BLOCK_MS` (30 ms on both sides). -/
def SYNC_BLOCK_MS : Int := 30

/-- The render-side scroll debounce window `SCROLL_DEBOUNCE_MS` (16 ms). -/
def SCROLL_DEBOUNCE_MS : Int := 16

/-! ## Host side: `ScrollSyncManager` -/

/-- The mutable fields of `ScrollSyncManager` relevant to the sync protocol. -/
structure HostState where
  isSyncing : Bool
  syncSource : Option SyncSource
  currentLine : Int
  isEnabled : Bool
  /-- Pending `_syncTimeout` lock-release timer, as its firing instant. -/
  syncTimeout : Option Int
deriving DecidableEq, Repr

/-- Observable effects of host-side operations. -/
inductive HostAction where
  /-- `webview.postMessage({command: 'syncScrollToLine', line})` -/
  | postSyncScrollToLine (line : Int)
  /-- `editor.revealRange(range, AtTop)` with `range` at the given line -/
  | revealAtTop (line : Int)
deriving DecidableEq, Repr

/-- The slice of a `vscode.TextEditor` the manager reads: the identity of its
document, the start lines of `visibleRanges`, and `document.lineCount`. -/
structure Editor where
  docId : Nat
  visibleRanges : List Int
  lineCount : Int
deriving DecidableEq, Repr

/-- `ScrollSyncManager.enable`: sets the flag only. -/
def hostEnable (s : HostState) : HostState × List HostAction :=
  ({ s with isEnabled := true }, [])

/-- `ScrollSyncManager.disable`: clears the enabled flag, the lock, and the
pending lock-release timer (`clearSyncTimeout`). -/
def hostDisable (s : HostState) : HostState × List HostAction :=
  ({ s with isEnabled := false, isSyncing := false, syncSource := none,
            syncTimeout := none }, [])

/-- `ScrollSyncManager.syncToPreview`: arms the lock with source `editor`,
posts `syncScrollToLine`, and (re)schedules the lock-release timer. -/
def syncToPreview (line : Int) (now : Int) (s : HostState) :
    HostState × List HostAction :=
  ({ s with isSyncing := true, syncSource := some .editor,
            syncTimeout := some (now + SYNC_BLOCK_MS) },
   [HostAction.postSyncScrollToLine line])

/-- `ScrollSyncManager.handleEditorScroll`.  `panelDoc` is
`this._panel.currentDocument`.  The unguarded read
`editor.visibleRanges[0].start.line` throws a `TypeError` when
`visibleRanges` is empty, so the result is `Except`: `.error` models the
exception escaping the handler (no state was mutated before the throw). -/
def handleEditorScroll (panelDoc : Nat) (editor : Editor) (now : Int)
    (s : HostState) : Except String (HostState × List HostAction) :=
  if !s.isEnabled then .ok (s, [])
  else if editor.docId ≠ panelDoc then .ok (s, [])
  else if s.isSyncing = true ∧ s.syncSource = some .preview then .ok (s, [])
  else
    match editor.visibleRanges with
    | [] => .error "TypeError: cannot read properties of undefined"
    | topLine :: _ =>
      if topLine = s.currentLine then .ok (s, [])
      else syncToPreview topLine now { s with currentLine := topLine }
        |> .ok

/-- `ScrollSyncManager.syncToEditor`.  `found` is the result of
`visibleTextEditors.find(e => e.document === currentDocument)`;
`revealThrows` models `editor.revealRange` throwing (the `catch` branch:
the reveal call is still made, but `_currentLine` is not updated). -/
def syncToEditor (line : Int) (found : Option Editor) (revealThrows : Bool)
    (now : Int) (s : HostState) : HostState × List HostAction :=
  if s.isSyncing = true ∧ s.syncSource = some .editor then (s, [])
  else
    let s1 : HostState := { s with isSyncing := true, syncSource := some .preview }
    match found with
    | none => ({ s1 with isSyncing := false, syncSource := none }, [])
    | some editor =>
      let targetLine := max 0 (min line (editor.lineCount - 1))
      let s2 : HostState :=
        if revealThrows then s1 else { s1 with currentLine := targetLine }
      ({ s2 with syncTimeout := some (now + SYNC_BLOCK_MS) },
       [HostAction.revealAtTop targetLine])

/-- Firing of the host lock-release `setTimeout` callback at time `t`:
releases the lock if a timer is pending and due. -/
def hostFireLockTimer (t : Int) (s : HostState) : HostState :=
  match s.syncTimeout with
  | some e =>
    if e ≤ t then { s with isSyncing := false, syncSource := none, syncTimeout := none }
    else s
  | none => s

/-! ## Render side: `IntersectionBasedScrollSync` -/

/-- One record of `visibleElements`: the cached intersection data of a node. -/
structure VisRecord where
  ratio : Int
  top : Int
  bottom : Int
deriving DecidableEq, Repr

/-- Insertion-ordered association list standing for the JS `Map`. -/
abbrev VisMap := List (Int × VisRecord)

/-- `Map.get`-style lookup. -/
def visGet (m : VisMap) (k : Int) : Option VisRecord :=
  (m.find? (fun p => p.1 = k)).map (fun p => p.2)

/-- `Map.set`: update in place when the key exists (keys are unique in a JS
`Map`, so replacing the first occurrence is replacing the occurrence),
append otherwise. -/
def visSet (m : VisMap) (k : Int) (v : VisRecord) : VisMap :=
  match m with
  | [] => [(k, v)]
  | p :: rest => if p.1 = k then (k, v) :: rest else p :: visSet rest k v

/-- `Map.delete`. -/
def visDelete (m : VisMap) (k : Int) : VisMap :=
  m.filter (fun p => p.1 ≠ k)

/-- The mutable fields of `IntersectionBasedScrollSync`. -/
structure RenderState where
  visibleElements : VisMap
  currentTopLine : Int
  isSyncing : Bool
  syncSource : Option SyncSource
  isEnabled : Bool
  /-- Pending `syncTimeout` lock-release timer, as its firing instant. -/
  syncTimeout : Option Int
  /-- Pending `scrollTimeout` debounce timer, as its firing instant. -/
  scrollTimeout : Option Int
deriving DecidableEq, Repr

/-- Observable effects of render-side operations. -/
inductive RenderAction where
  /-- `vscode.postMessage({command: 'previewScrolledToLine', line})` -/
  | postPreviewScrolledToLine (line : Int)
  /-- `element.scrollIntoView({behavior: 'instant', block: 'start'})` on the
  node tagged `data-line = line` -/
  | scrollIntoView (line : Int)
deriving DecidableEq, Repr

/-- One `IntersectionObserverEntry` as consumed by `handleIntersection`:
the node's `data-line`, `isIntersecting`, `intersectionRatio` and
`boundingClientRect.{top, bottom}`. -/
structure IntersectionEntry where
  line : Int
  isIntersecting : Bool
  ratio : Int
  top : Int
  bottom : Int
deriving DecidableEq, Repr

/-- Body of the `entries.forEach` loop of `handleIntersection`. -/
def handleIntersectionStep (m : VisMap) (e : IntersectionEntry) : VisMap :=
  if e.isIntersecting then
    visSet m e.line ⟨e.ratio, e.top, e.bottom⟩
  else
    visDelete m e.line

/-- `IntersectionBasedScrollSync.handleIntersection`: folds the batch of
entries into `visibleElements`; nothing else is touched and no message is
sent. -/
def handleIntersection (entries : List IntersectionEntry) (s : RenderState) :
    RenderState × List RenderAction :=
  ({ s with visibleElements := entries.foldl handleIntersectionStep s.visibleElements },
   [])

/-- Loop body of `getTopVisibleLine`: the accumulator is
`some (topLine, minTop)` once a candidate has been found (`minTop` starts
at `Infinity`, modelled by the `none` accumulator; strict `<` makes the
first minimal entry win). -/
def topScanStep (acc : Option (Int × Int)) (p : Int × VisRecord) :
    Option (Int × Int) :=
  match acc with
  | none => if p.2.top ≥ 0 then some (p.1, p.2.top) else none
  | some (l, m) =>
    if p.2.top ≥ 0 ∧ p.2.top < m then some (p.1, p.2.top) else some (l, m)

/-- `IntersectionBasedScrollSync.getTopVisibleLine`: scan `visibleElements`
keeping the entry of minimal `top` among those with `top >= 0`.  Returns
`none` for an empty map and when every `top` is negative. -/
def getTopVisibleLine (s : RenderState) : Option Int :=
  (s.visibleElements.foldl topScanStep none).map (fun q => q.1)

/-- `IntersectionBasedScrollSync.sendScrollMessage`: arms the lock with
source `preview`, posts `previewScrolledToLine` when the `vscode` bridge is
available (dropped with a console error otherwise), and (re)schedules the
lock-release timer. -/
def sendScrollMessage (vsAvail : Bool) (line : Int) (now : Int)
    (s : RenderState) : RenderState × List RenderAction :=
  ({ s with isSyncing := true, syncSource := some .preview,
            syncTimeout := some (now + SYNC_BLOCK_MS) },
   if vsAvail then [RenderAction.postPreviewScrolledToLine line] else [])

/-- `IntersectionBasedScrollSync.syncScrollToEditor`: computes the top
visible line and, when defined and different from `currentTopLine`, updates
`currentTopLine` and sends. -/
def syncScrollToEditor (vsAvail : Bool) (now : Int) (s : RenderState) :
    RenderState × List RenderAction :=
  match getTopVisibleLine s with
  | some topLine =>
    if topLine ≠ s.currentTopLine then
      sendScrollMessage vsAvail topLine now { s with currentTopLine := topLine }
    else (s, [])
  | none => (s, [])

/-- `IntersectionBasedScrollSync.handleScroll`.  Note the JS detail: after
`clearTimeout(this.scrollTimeout)` the handle field is *not* nulled, so the
leading-edge `if (!this.scrollTimeout) this.syncScrollToEditor()` fires only
when no debounce timer was pending; the trailing timer is then always
(re)scheduled. -/
def handleScroll (vsAvail : Bool) (now : Int) (s : RenderState) :
    RenderState × List RenderAction :=
  if !s.isEnabled then (s, [])
  else if s.isSyncing = true ∧ s.syncSource = some .editor then (s, [])
  else
    let r :=
      if s.scrollTimeout = none then syncScrollToEditor vsAvail now s
      else (s, [])
    ({ r.1 with scrollTimeout := some (now + SCROLL_DEBOUNCE_MS) }, r.2)

/-- Firing of the render-side trailing debounce `setTimeout` callback:
nulls `scrollTimeout` and runs `syncScrollToEditor`. -/
def fireScrollDebounce (vsAvail : Bool) (now : Int) (s : RenderState) :
    RenderState × List RenderAction :=
  syncScrollToEditor vsAvail now { s with scrollTimeout := none }

/-- `IntersectionBasedScrollSync.scrollToLine`.  `domLines` is the multiset
of `data-line` values present in the document
(`document.querySelector('[data-line="${line}"]')` succeeds iff `line` is a
member).  When no node matches, the method returns before arming the lock
or touching `currentTopLine`. -/
def scrollToLine (line : Int) (domLines : List Int) (now : Int)
    (s : RenderState) : RenderState × List RenderAction :=
  if !s.isEnabled then (s, [])
  else if s.isSyncing = true ∧ s.syncSource = some .preview then (s, [])
  else if line ∈ domLines then
    ({ s with isSyncing := true, syncSource := some .editor,
              currentTopLine := line,
              syncTimeout := some (now + SYNC_BLOCK_MS) },
     [RenderAction.scrollIntoView line])
  else (s, [])

/-- `IntersectionBasedScrollSync.enable`: sets the flag only. -/
def renderEnable (s : RenderState) : RenderState × List RenderAction :=
  ({ s with isEnabled := true }, [])

/-- `IntersectionBasedScrollSync.disable`: clears the enabled flag, the
lock, and both pending timers (lock-release and scroll debounce). -/
def renderDisable (s : RenderState) : RenderState × List RenderAction :=
  ({ s with isEnabled := false, isSyncing := false, syncSource := none,
            syncTimeout := none, scrollTimeout := none }, [])

/-- Firing of the render lock-release `setTimeout` callback at time `t`. -/
def renderFireLockTimer (t : Int) (s : RenderState) : RenderState :=
  match s.syncTimeout with
  | some e =>
    if e ≤ t then { s with isSyncing := false, syncSource := none, syncTimeout := none }
    else s
  | none => s

/-- The last entry of an intersection batch concerning the given line, if
any (later entries of one `IntersectionObserver` batch overwrite earlier
ones for the same node/line in the `forEach` loop). -/
def lastEntryFor (line : Int) (entries : List IntersectionEntry) :
    Option IntersectionEntry :=
  match entries with
  | [] => none
  | e :: rest =>
    match lastEntryFor line rest with
    | some e' => some e'
    | none => if e.line = line then some e else none

/-! ## Event traces (for the lock-expiry bound)

A controller evolves by handler invocations and timer callbacks, each
running to completion on its side's single event loop.  An event paired
with the instant `now` at which it runs drives one step. -/

/-- Host-side events: the union of entry points that can run on the host
event loop. -/
inductive HostEvent where
  | enable
  | disable
  | editorScroll (panelDoc : Nat) (editor : Editor)
  | inbound (line : Int) (found : Option Editor) (revealThrows : Bool)
  | lockFire
deriving Repr

/-- One host step: dispatch of an event at instant `now`.  A thrown
exception (`handleEditorScroll` on empty `visibleRanges`) leaves the state
as it was, since nothing is mutated before the throw. -/
def hostStepE (now : Int) (s : HostState) : HostEvent → HostState
  | .enable => (hostEnable s).1
  | .disable => (hostDisable s).1
  | .editorScroll d ed =>
    match handleEditorScroll d ed now s with
    | .ok (s', _) => s'
    | .error _ => s
  | .inbound l f r => (syncToEditor l f r now s).1
  | .lockFire => hostFireLockTimer now s

/-- Run a list of timed host events. -/
def hostRun (s : HostState) (evs : List (Int × HostEvent)) : HostState :=
  evs.foldl (fun s p => hostStepE p.1 s p.2) s

/-- A host event does not (re-)arm the lock-release timer: the pending
timer is kept as it was or cancelled, never newly scheduled. -/
def hostNoRearm (now : Int) (s : HostState) (e : HostEvent) : Prop :=
  (hostStepE now s e).syncTimeout = s.syncTimeout
  ∨ (hostStepE now s e).syncTimeout = none

/-- Every event of the trace satisfies `hostNoRearm` at the state it runs in. -/
def hostNoRearmRun : HostState → List (Int × HostEvent) → Prop
  | _, [] => True
  | s, (n, e) :: rest => hostNoRearm n s e ∧ hostNoRearmRun (hostStepE n s e) rest

/-- Render-side events: the union of entry points that can run on the
render event loop. -/
inductive RenderEvent where
  | enable
  | disable
  | scroll (vsAvail : Bool)
  | inbound (line : Int) (domLines : List Int)
  | intersection (entries : List IntersectionEntry)
  | debounceFire (vsAvail : Bool)
  | lockFire
deriving Repr

/-- One render step: dispatch of an event at instant `now`. -/
def renderStepE (now : Int) (s : RenderState) : RenderEvent → RenderState
  | .enable => (renderEnable s).1
  | .disable => (renderDisable s).1
  | .scroll v => (handleScroll v now s).1
  | .inbound l dom => (scrollToLine l dom now s).1
  | .intersection es => (handleIntersection es s).1
  | .debounceFire v => (fireScrollDebounce v now s).1
  | .lockFire => renderFireLockTimer now s

/-- Run a list of timed render events. -/
def renderRun (s : RenderState) (evs : List (Int × RenderEvent)) : RenderState :=
  evs.foldl (fun s p => renderStepE p.1 s p.2) s

/-- A render event does not (re-)arm the lock-release timer. -/
def renderNoRearm (now : Int) (s : RenderState) (e : RenderEvent) : Prop :=
  (renderStepE now s e).syncTimeout = s.syncTimeout
  ∨ (renderStepE now s e).syncTimeout = none

/-- Every event of the trace satisfies `renderNoRearm` at the state it
runs in. -/
def renderNoRearmRun : RenderState → List (Int × RenderEvent) → Prop
  | _, [] => True
  | s, (n, e) :: rest => renderNoRearm n s e ∧ renderNoRearmRun (renderStepE n s e) rest

/-- Invariant for the host lock-expiry argument: either the release timer
pending at expiry `E` is still the pending one, or the lock has been
released (and no release timer is pending). -/
def hostLockOk (E : Int) (s : HostState) : Prop :=
  s.syncTimeout = some E
  ∨ (s.isSyncing = false ∧ s.syncSource = none ∧ s.syncTimeout = none)

/-- Invariant for the render lock-expiry argument. -/
def renderLockOk (E : Int) (s : RenderState) : Prop :=
  s.syncTimeout = some E
  ∨ (s.isSyncing = false ∧ s.syncSource = none ∧ s.syncTimeout = none)

/-! ## Concrete fixtures used by counterexamples and witnesses -/

/-- A host controller state: enabled, no lock, `currentLine = 5`. -/
def hostAt5 : HostState := ⟨false, none, 5, true, none⟩

/-- A host controller state: enabled, no lock, `currentLine = 0`. -/
def hostFresh : HostState := ⟨false, none, 0, true, none⟩

/-- An editor on document 0 with 10 lines, top visible line 0. -/
def edTen : Editor := ⟨0, [0], 10⟩

/-- An editor on document 0 with 10 lines whose `visibleRanges` is empty. -/
def edEmptyRanges : Editor := ⟨0, [], 10⟩

/-- A render controller state: enabled, no lock, no tracked nodes,
`currentTopLine = 5`. -/
def renderAt5 : RenderState := ⟨[], 5, false, none, true, none, none⟩

/-- The spec's example cache: `{3: top=50, 7: top=-10, 9: top=5}`. -/
def renderExample : RenderState :=
  ⟨[(3, ⟨1, 50, 60⟩), (7, ⟨1, -10, 20⟩), (9, ⟨1, 5, 40⟩)],
   0, false, none, true, none, none⟩

/-- A render controller state whose only tracked node has `top = -10`. -/
def renderAllNeg : RenderState :=
  ⟨[(7, ⟨1, -10, 20⟩)], 0, false, none, true, none, none⟩

/-- A host controller state with the lock armed by an outbound sync at
instant 0 (`source = editor`, release timer pending at 30). -/
def hostArmed : HostState := ⟨true, some .editor, 5, true, some 30⟩

/-- A render controller state with the lock armed by an inbound sync at
instant 0 (`source = editor`, release timer pending at 30). -/
def renderArmed : RenderState := ⟨[], 5, true, some .editor, true, some 30, none⟩

/-! ## Claims -/

/-- C1 counterexample: host controller with `CurrentTopLine = 5` already;
delivering inbound line 5 twice in a row performs a reveal *both* times —
the second handling of `onInboundLine(5)` is not a no-op, contradicting the
claim that it performs no reveal call. -/
theorem C1_counterexample :
    (syncToEditor 5 (some edTen) false 0 hostAt5).2 = [HostAction.revealAtTop 5]
    ∧ (syncToEditor 5 (some edTen) false 10
        (syncToEditor 5 (some edTen) false 0 hostAt5).1).2
      = [HostAction.revealAtTop 5] := by
  constructor <;> decide

/-- C1 (amended): inbound delivery performs the reveal / scrollIntoView
regardless of `CurrentTopLine`.  On both controllers, delivering `L` to a
controller whose current top line already equals `L` (and which is not
suppressed by the opposite-source lock guard, is enabled on the render
side, and can resolve the target) performs exactly one reveal /
scrollIntoView — so the second of two back-to-back deliveries scrolls
again; the `CurrentTopLine` dedupe exists only on the outbound handlers. -/
theorem C1_inbound_always_reveals (L : Int) (ed : Editor) (rt : Bool)
    (now : Int) (s : HostState)
    (hlock : ¬(s.isSyncing = true ∧ s.syncSource = some SyncSource.editor))
    (hcur : s.currentLine = L)
    (r : RenderState) (domLines : List Int) (nowR : Int)
    (hen : r.isEnabled = true)
    (hlockR : ¬(r.isSyncing = true ∧ r.syncSource = some SyncSource.preview))
    (hcurR : r.currentTopLine = L) (hdom : L ∈ domLines) :
    (syncToEditor L (some ed) rt now s).2
      = [HostAction.revealAtTop (max 0 (min L (ed.lineCount - 1)))]
    ∧ (scrollToLine L domLines nowR r).2 = [RenderAction.scrollIntoView L] := by
  constructor
  · unfold syncToEditor
    rw [if_neg hlock]
  · unfold scrollToLine
    simp [hen, hlockR, hdom]

/-- C1 witness. -/
theorem C1_inbound_always_reveals_witness :
    (syncToEditor 5 (some edTen) false 10 ⟨true, some .preview, 5, true, some 30⟩).2
      = [HostAction.revealAtTop (max 0 (min 5 (edTen.lineCount - 1)))]
    ∧ (scrollToLine 5 [5] 10 ⟨[], 5, true, some .editor, true, some 30, none⟩).2
      = [RenderAction.scrollIntoView 5] :=
  C1_inbound_always_reveals 5 edTen false 10 ⟨true, some .preview, 5, true, some 30⟩
    (by decide) rfl ⟨[], 5, true, some .editor, true, some 30, none⟩ [5] 10
    rfl (by decide) rfl (by decide)

/-- C2 counterexample: render controller, enabled, no active lock, and no
DOM node tagged `7`: delivering inbound line 7 leaves the lock unarmed and
schedules no release timer, contradicting the claim that the lock is armed
even when no node matches. -/
theorem C2_counterexample :
    (scrollToLine 7 [] 0 renderAt5).1.isSyncing = false
    ∧ (scrollToLine 7 [] 0 renderAt5).1.syncSource = none
    ∧ (scrollToLine 7 [] 0 renderAt5).1.syncTimeout = none
    ∧ (scrollToLine 7 [] 0 renderAt5).1.currentTopLine = 5 := by
  decide

/-- C2 (amended): for an enabled render controller with no
`source = preview` lock, inbound `scrollToLine L` arms the lock with
`source = editor`, sets `CurrentTopLine = L` and scrolls *when a node
tagged `L` exists*; when no node matches, the whole operation is a no-op:
no scroll, no lock armed, no timer scheduled, `CurrentTopLine` unchanged. -/
theorem C2_scrollToLine_cases (L : Int) (domLines : List Int) (now : Int)
    (r : RenderState) (hen : r.isEnabled = true)
    (hlock : ¬(r.isSyncing = true ∧ r.syncSource = some SyncSource.preview)) :
    (L ∈ domLines →
      scrollToLine L domLines now r
        = ({ r with isSyncing := true, syncSource := some SyncSource.editor,
                    currentTopLine := L,
                    syncTimeout := some (now + SYNC_BLOCK_MS) },
           [RenderAction.scrollIntoView L]))
    ∧ (L ∉ domLines → scrollToLine L domLines now r = (r, [])) := by
  constructor
  · intro hdom
    unfold scrollToLine
    simp [hen, hlock, hdom]
  · intro hdom
    unfold scrollToLine
    simp [hen, hlock, hdom]

/-- C2 witness. -/
theorem C2_scrollToLine_cases_witness :
    (7 ∈ ([7] : List Int) →
      scrollToLine 7 [7] 0 renderAt5
        = ({ renderAt5 with isSyncing := true,
                            syncSource := some SyncSource.editor,
                            currentTopLine := 7,
                            syncTimeout := some (0 + SYNC_BLOCK_MS) },
           [RenderAction.scrollIntoView 7]))
    ∧ (7 ∉ ([7] : List Int) → scrollToLine 7 [7] 0 renderAt5 = (renderAt5, [])) :=
  C2_scrollToLine_cases 7 [7] 0 renderAt5 rfl (by decide)

/-- C3: echo suppression inside the block window.  While the render-side
lock is active with `source = editor`, `handleScroll` sends no outbound
`previewScrolledToLine` message and leaves the state untouched;
symmetrically, while the host-side lock is active with `source = preview`,
`handleEditorScroll` ignores the editor viewport change (sends no
`syncScrollToLine`, no state change, no exception). -/
theorem C3_lock_suppresses_opposite_events
    (r : RenderState) (vsAvail : Bool) (now : Int)
    (hr : r.isSyncing = true) (hrsrc : r.syncSource = some SyncSource.editor)
    (s : HostState) (panelDoc : Nat) (ed : Editor) (nowH : Int)
    (hs : s.isSyncing = true) (hssrc : s.syncSource = some SyncSource.preview) :
    handleScroll vsAvail now r = (r, [])
    ∧ handleEditorScroll panelDoc ed nowH s = .ok (s, []) := by
  constructor
  · unfold handleScroll
    by_cases h : r.isEnabled
    · simp [h, hr, hrsrc]
    · simp [h]
  · unfold handleEditorScroll
    by_cases h1 : s.isEnabled
    · by_cases h2 : ed.docId = panelDoc
      · simp [h1, h2, hs, hssrc]
      · simp [h1, h2]
    · simp [h1]

/-- C3 witness. -/
theorem C3_lock_suppresses_opposite_events_witness :
    handleScroll true 10 ⟨[], 5, true, some .editor, true, some 30, none⟩
      = (⟨[], 5, true, some .editor, true, some 30, none⟩, [])
    ∧ handleEditorScroll 0 edTen 10 ⟨true, some .preview, 5, true, some 30⟩
      = .ok (⟨true, some .preview, 5, true, some 30⟩, []) :=
  C3_lock_suppresses_opposite_events
    ⟨[], 5, true, some .editor, true, some 30, none⟩ true 10 rfl rfl
    ⟨true, some .preview, 5, true, some 30⟩ 0 edTen 10 rfl rfl

/-- C4: clamping on the host inbound path.  With an editor present
(`lineCount ≥ 1`) and the operation not suppressed by a
`source = editor` lock, `syncToEditor line` reveals exactly the clamped
line `max 0 (min line (lineCount - 1))`, which lies in
`[0, lineCount - 1]`; in particular `line ≥ lineCount` reveals
`lineCount - 1` and `line < 0` reveals `0`. -/
theorem C4_syncToEditor_clamps (line : Int) (ed : Editor) (rt : Bool)
    (now : Int) (s : HostState)
    (hlock : ¬(s.isSyncing = true ∧ s.syncSource = some SyncSource.editor))
    (hcnt : 1 ≤ ed.lineCount) :
    (syncToEditor line (some ed) rt now s).2
      = [HostAction.revealAtTop (max 0 (min line (ed.lineCount - 1)))]
    ∧ 0 ≤ max 0 (min line (ed.lineCount - 1))
    ∧ max 0 (min line (ed.lineCount - 1)) ≤ ed.lineCount - 1
    ∧ (ed.lineCount ≤ line → max 0 (min line (ed.lineCount - 1)) = ed.lineCount - 1)
    ∧ (line < 0 → max 0 (min line (ed.lineCount - 1)) = 0) := by
  refine ⟨?_, ?_, ?_, ?_, ?_⟩
  · unfold syncToEditor
    rw [if_neg hlock]
  · omega
  · omega
  · omega
  · omega

/-- C4 witness (line 25 against a 10-line document, and line `-3`). -/
theorem C4_syncToEditor_clamps_witness :
    ((syncToEditor 25 (some edTen) false 0 hostFresh).2
      = [HostAction.revealAtTop (max 0 (min 25 (edTen.lineCount - 1)))]
    ∧ 0 ≤ max 0 (min 25 (edTen.lineCount - 1))
    ∧ max 0 (min 25 (edTen.lineCount - 1)) ≤ edTen.lineCount - 1
    ∧ (edTen.lineCount ≤ 25 → max 0 (min 25 (edTen.lineCount - 1)) = edTen.lineCount - 1)
    ∧ ((25 : Int) < 0 → max 0 (min 25 (edTen.lineCount - 1)) = 0))
    ∧ ((-3 : Int) < 0 → max 0 (min (-3) (edTen.lineCount - 1)) = 0) :=
  ⟨C4_syncToEditor_clamps 25 edTen false 0 hostFresh (by decide) (by decide),
   (C4_syncToEditor_clamps (-3) edTen false 0 hostFresh (by decide) (by decide)).2.2.2.2⟩

/-- C6: evaluation at the failing input.  With sync enabled, no active
lock, and an editor on the tracked document whose `visibleRanges` list is
empty, `handleEditorScroll` throws: the unguarded
`editor.visibleRanges[0].start.line` read escapes the handler as a
`TypeError`, contradicting the spec's propagation policy. -/
theorem C6_handleEditorScroll_throws :
    handleEditorScroll 0 edEmptyRanges 0 hostFresh
      = .error "TypeError: cannot read properties of undefined" := by
  rfl

/-- C7: disabling either controller synchronously clears the lock
(`active = false`, `source = none`) and cancels every pending timer it owns
(host: lock-release; render: lock-release and scroll debounce), while
leaving `CurrentTopLine` (and the render cache) unchanged and emitting
nothing; re-enabling only sets the enabled flag and sends no message. -/
theorem C7_disable_clears_enable_is_silent (s : HostState) (r : RenderState) :
    (hostDisable s).1.isSyncing = false
    ∧ (hostDisable s).1.syncSource = none
    ∧ (hostDisable s).1.syncTimeout = none
    ∧ (hostDisable s).1.isEnabled = false
    ∧ (hostDisable s).1.currentLine = s.currentLine
    ∧ (hostDisable s).2 = []
    ∧ (hostEnable s).1 = { s with isEnabled := true }
    ∧ (hostEnable s).2 = []
    ∧ (renderDisable r).1.isSyncing = false
    ∧ (renderDisable r).1.syncSource = none
    ∧ (renderDisable r).1.syncTimeout = none
    ∧ (renderDisable r).1.scrollTimeout = none
    ∧ (renderDisable r).1.isEnabled = false
    ∧ (renderDisable r).1.currentTopLine = r.currentTopLine
    ∧ (renderDisable r).1.visibleElements = r.visibleElements
    ∧ (renderDisable r).2 = []
    ∧ (renderEnable r).1 = { r with isEnabled := true }
    ∧ (renderEnable r).2 = [] := by
  refine ⟨rfl, rfl, rfl, rfl, rfl, rfl, rfl, rfl, rfl,
          rfl, rfl, rfl, rfl, rfl, rfl, rfl, rfl, rfl⟩

/-! ## Helper lemmas on the top-line scan -/

/-- One scan step starting from a candidate keeps a candidate and never
increases the recorded minimum. -/
theorem topScanStep_some (q : Int × Int) (p : Int × VisRecord) :
    ∃ q', topScanStep (some q) p = some q' ∧ q'.2 ≤ q.2 := by
  rcases q with ⟨l, m⟩
  by_cases h : p.2.top ≥ 0 ∧ p.2.top < m
  · exact ⟨(p.1, p.2.top), by simp [topScanStep, h], by simp; omega⟩
  · exact ⟨(l, m), by simp [topScanStep, h], le_refl m⟩

/-- Scanning from a candidate keeps a candidate and never increases the
recorded minimum. -/
theorem foldl_topScanStep_some (t : VisMap) (q : Int × Int) :
    ∃ q', t.foldl topScanStep (some q) = some q' ∧ q'.2 ≤ q.2 := by
  induction t generalizing q with
  | nil => exact ⟨q, rfl, le_refl _⟩
  | cons p t ih =>
    obtain ⟨q1, h1, h2⟩ := topScanStep_some q p
    obtain ⟨q', h', h''⟩ := ih q1
    refine ⟨q', ?_, le_trans h'' h2⟩
    rw [List.foldl_cons, h1, h']

/-- The final minimum is bounded by any intermediate candidate's minimum. -/
theorem foldl_topScanStep_mono (t : VisMap) (q : Int × Int) (ln m : Int)
    (h : t.foldl topScanStep (some q) = some (ln, m)) : m ≤ q.2 := by
  obtain ⟨q', hq', hle⟩ := foldl_topScanStep_some t q
  rw [h] at hq'
  cases hq'
  exact hle

/-- The scan yields no candidate iff it started with none and every entry
has a negative `top`. -/
theorem foldl_topScanStep_eq_none (t : VisMap) :
    t.foldl topScanStep none = none ↔ ∀ p ∈ t, p.2.top < 0 := by
  induction t with
  | nil => simp
  | cons p t ih =>
    by_cases h : p.2.top ≥ 0
    · obtain ⟨q', hq', _⟩ := foldl_topScanStep_some t (p.1, p.2.top)
      constructor
      · intro hfold
        rw [List.foldl_cons] at hfold
        have hstep : topScanStep none p = some (p.1, p.2.top) := by
          simp [topScanStep, h]
        rw [hstep, hq'] at hfold
        exact absurd hfold (by simp)
      · intro hall
        exact absurd (hall p (List.mem_cons_self p t)) (by omega)
    · have hstep : topScanStep none p = none := by
        simp [topScanStep, h]
      rw [List.foldl_cons, hstep]
      constructor
      · intro hfold q hq
        rcases List.mem_cons.mp hq with rfl | hq
        · omega
        · exact ih.mp hfold q hq
      · intro hall
        exact ih.mpr (fun q hq => hall q (List.mem_cons_of_mem p hq))

/-- Characterization of a successful scan: the result either is the initial
candidate or names an entry of the list whose `top` equals the final
minimum; in both cases the final minimum is a lower bound on every
non-negative `top` in the list. -/
theorem foldl_topScanStep_min (t : VisMap) (acc : Option (Int × Int))
    (ln m : Int) (h : t.foldl topScanStep acc = some (ln, m)) :
    (acc = some (ln, m) ∧ ∀ p ∈ t, 0 ≤ p.2.top → m ≤ p.2.top)
    ∨ (∃ r : VisRecord, (ln, r) ∈ t ∧ r.top = m ∧ 0 ≤ m
        ∧ ∀ p ∈ t, 0 ≤ p.2.top → m ≤ p.2.top) := by
  induction t generalizing acc with
  | nil => exact Or.inl ⟨h, by simp⟩
  | cons p t ih =>
    rw [List.foldl_cons] at h
    rcases ih (topScanStep acc p) h with ⟨heq, hall⟩ | ⟨r, hmem, hrt, hm, hall⟩
    · match acc with
      | none =>
        by_cases hp : p.2.top ≥ 0
        · have hstep : topScanStep none p = some (p.1, p.2.top) := by
            simp [topScanStep, hp]
          rw [hstep] at heq
          injection heq with heq
          have h1 : p.1 = ln := congrArg Prod.fst heq
          have h2 : p.2.top = m := congrArg Prod.snd heq
          refine Or.inr ⟨p.2, ?_, h2, by omega, ?_⟩
          · rw [← h1]
            exact List.mem_cons_self p t
          · intro q hq hq0
            rcases List.mem_cons.mp hq with rfl | hq
            · omega
            · exact hall q hq hq0
        · have hstep : topScanStep none p = none := by simp [topScanStep, hp]
          rw [hstep] at heq
          exact absurd heq (by simp)
      | some (l0, m0) =>
        by_cases hp : p.2.top ≥ 0 ∧ p.2.top < m0
        · have hstep : topScanStep (some (l0, m0)) p = some (p.1, p.2.top) := by
            simp [topScanStep, hp]
          rw [hstep] at heq
          injection heq with heq
          have h1 : p.1 = ln := congrArg Prod.fst heq
          have h2 : p.2.top = m := congrArg Prod.snd heq
          refine Or.inr ⟨p.2, ?_, h2, by omega, ?_⟩
          · rw [← h1]
            exact List.mem_cons_self p t
          · intro q hq hq0
            rcases List.mem_cons.mp hq with rfl | hq
            · omega
            · exact hall q hq hq0
        · have hstep : topScanStep (some (l0, m0)) p = some (l0, m0) := by
            simp only [topScanStep]
            rw [if_neg hp]
          rw [hstep] at heq
          injection heq with heq
          have h1 : l0 = ln := congrArg Prod.fst heq
          have h2 : m0 = m := congrArg Prod.snd heq
          refine Or.inl ⟨by rw [h1, h2], ?_⟩
          intro q hq hq0
          rcases List.mem_cons.mp hq with rfl | hq
          · omega
          · exact hall q hq hq0
    · refine Or.inr ⟨r, List.mem_cons_of_mem p hmem, hrt, hm, ?_⟩
      intro q hq hq0
      rcases List.mem_cons.mp hq with rfl | hq
      · -- bound the head via the candidate after the first step
        match acc with
        | none =>
          have hstep : topScanStep none q = some (q.1, q.2.top) := by
            simp [topScanStep, hq0]
          rw [hstep] at h
          have := foldl_topScanStep_mono t (q.1, q.2.top) ln m h
          omega
        | some (l0, m0) =>
          by_cases hlt : q.2.top < m0
          · have hstep : topScanStep (some (l0, m0)) q = some (q.1, q.2.top) := by
              simp [topScanStep, hq0, hlt]
            rw [hstep] at h
            have := foldl_topScanStep_mono t (q.1, q.2.top) ln m h
            omega
          · have hstep : topScanStep (some (l0, m0)) q = some (l0, m0) := by
              simp only [topScanStep]
              rw [if_neg (by omega)]
            rw [hstep] at h
            have := foldl_topScanStep_mono t (l0, m0) ln m h
            simp at this
            omega
      · exact hall q hq hq0

/-- C5: top-line selection.  `getTopVisibleLine` (1) returns `none` on an
empty `VisibleLineSet`; (2) returns a defined line whenever some entry has
`top ≥ 0`; (3) any returned line belongs to an entry with `top ≥ 0` whose
`top` is minimal among all entries with `top ≥ 0`; and (4) on the spec's
example `{3: top=50, 7: top=-10, 9: top=5}` it returns `9`. -/
theorem C5_top_line_selection :
    (∀ s : RenderState, s.visibleElements = [] → getTopVisibleLine s = none)
    ∧ (∀ s : RenderState, ∀ p ∈ s.visibleElements, 0 ≤ p.2.top →
        ∃ ln, getTopVisibleLine s = some ln)
    ∧ (∀ s : RenderState, ∀ ln, getTopVisibleLine s = some ln →
        ∃ r : VisRecord, (ln, r) ∈ s.visibleElements ∧ 0 ≤ r.top
          ∧ ∀ p ∈ s.visibleElements, 0 ≤ p.2.top → r.top ≤ p.2.top)
    ∧ getTopVisibleLine renderExample = some 9 := by
  refine ⟨?_, ?_, ?_, by decide⟩
  · intro s h
    unfold getTopVisibleLine
    rw [h]
    rfl
  · intro s p hp hp0
    cases hfold : s.visibleElements.foldl topScanStep none with
    | none =>
      have := (foldl_topScanStep_eq_none s.visibleElements).mp hfold p hp
      omega
    | some q =>
      refine ⟨q.1, ?_⟩
      unfold getTopVisibleLine
      rw [hfold]
      rfl
  · intro s ln h
    unfold getTopVisibleLine at h
    rcases Option.map_eq_some'.mp h with ⟨⟨l, m⟩, hfold, heq⟩
    simp only at heq
    subst heq
    rcases foldl_topScanStep_min s.visibleElements none l m hfold with
      ⟨habs, _⟩ | ⟨r, hmem, hrt, hm, hall⟩
    · exact absurd habs (by simp)
    · exact ⟨r, hmem, by omega, fun p hp hp0 => by rw [hrt]; exact hall p hp hp0⟩

/-- C5 witness: the minimality characterization instantiated on the spec's
example set, with the hypothesis discharged by computation. -/
theorem C5_top_line_selection_witness :
    ∃ r : VisRecord, (9, r) ∈ renderExample.visibleElements ∧ 0 ≤ r.top
      ∧ ∀ p ∈ renderExample.visibleElements, 0 ≤ p.2.top → r.top ≤ p.2.top :=
  C5_top_line_selection.2.2.1 renderExample 9 (by decide)

/-- C10: a non-empty `VisibleLineSet` in which every entry's `top` is
negative also yields `getTopVisibleLine = none`, so a scroll-driven sync
pass (`syncScrollToEditor`, and the `handleScroll` entry around it) sends
no outbound message and leaves `CurrentTopLine` (indeed the whole state)
unchanged: emptiness is not the only silent case. -/
theorem C10_all_negative_tops_silent (s : RenderState) (vsAvail : Bool)
    (now : Int) (hne : s.visibleElements ≠ [])
    (hneg : ∀ p ∈ s.visibleElements, p.2.top < 0) :
    getTopVisibleLine s = none
    ∧ syncScrollToEditor vsAvail now s = (s, [])
    ∧ (handleScroll vsAvail now s).2 = []
    ∧ (handleScroll vsAvail now s).1.currentTopLine = s.currentTopLine := by
  have hfold : s.visibleElements.foldl topScanStep none = none :=
    (foldl_topScanStep_eq_none s.visibleElements).mpr hneg
  have hg : getTopVisibleLine s = none := by
    unfold getTopVisibleLine
    rw [hfold]
    rfl
  have hsync : syncScrollToEditor vsAvail now s = (s, []) := by
    unfold syncScrollToEditor
    rw [hg]
  refine ⟨hg, hsync, ?_, ?_⟩
  · unfold handleScroll
    by_cases h1 : s.isEnabled
    · by_cases h2 : s.isSyncing = true ∧ s.syncSource = some SyncSource.editor
      · simp [h1, h2]
      · by_cases h3 : s.scrollTimeout = none
        · simp [h1, h2, h3, hsync]
        · simp [h1, h2, h3]
    · simp [h1]
  · unfold handleScroll
    by_cases h1 : s.isEnabled
    · by_cases h2 : s.isSyncing = true ∧ s.syncSource = some SyncSource.editor
      · simp [h1, h2]
      · by_cases h3 : s.scrollTimeout = none
        · simp [h1, h2, h3, hsync]
        · simp [h1, h2, h3]
    · simp [h1]

/-- C10 witness: the one-entry cache `{7: top=-10}`. -/
theorem C10_all_negative_tops_silent_witness :
    getTopVisibleLine renderAllNeg = none
    ∧ syncScrollToEditor true 0 renderAllNeg = (renderAllNeg, [])
    ∧ (handleScroll true 0 renderAllNeg).2 = []
    ∧ (handleScroll true 0 renderAllNeg).1.currentTopLine
        = renderAllNeg.currentTopLine :=
  C10_all_negative_tops_silent renderAllNeg true 0 (by decide) (by decide)

/-! ## Helper lemmas on the visibility cache -/

/-- Lookup into a non-empty cache: the head decides when its key matches. -/
theorem visGet_cons (q : Int × VisRecord) (t : VisMap) (j : Int) :
    visGet (q :: t) j = if q.1 = j then some q.2 else visGet t j := by
  by_cases h : q.1 = j <;> simp [visGet, List.find?, h]

/-- Lookup after `Map.set`. -/
theorem visGet_visSet (m : VisMap) (k : Int) (v : VisRecord) (j : Int) :
    visGet (visSet m k v) j = if j = k then some v else visGet m j := by
  induction m with
  | nil =>
    show visGet ((k, v) :: []) j = _
    rw [visGet_cons]
    by_cases h : j = k
    · rw [if_pos (by omega : k = j), if_pos h]
    · rw [if_neg (by omega : ¬(k = j)), if_neg h]
  | cons p rest ih =>
    simp only [visSet]
    by_cases hpk : p.1 = k
    · rw [if_pos hpk, visGet_cons, visGet_cons]
      by_cases h : j = k
      · rw [if_pos (by omega : k = j), if_pos h]
      · rw [if_neg (by omega : ¬(k = j)), if_neg h,
            if_neg (by omega : ¬(p.1 = j))]
    · rw [if_neg hpk, visGet_cons, visGet_cons]
      by_cases hpj : p.1 = j
      · rw [if_pos hpj, if_pos hpj, if_neg (by omega : ¬(j = k))]
      · rw [if_neg hpj, if_neg hpj, ih]

/-- Lookup after `Map.delete`. -/
theorem visGet_visDelete (m : VisMap) (k : Int) (j : Int) :
    visGet (visDelete m k) j = if j = k then none else visGet m j := by
  induction m with
  | nil =>
    by_cases h : j = k
    · rw [if_pos h]
      rfl
    · rw [if_neg h]
      rfl
  | cons p rest ih =>
    by_cases hpk : p.1 = k
    · have hd : visDelete (p :: rest) k = visDelete rest k := by
        simp [visDelete, List.filter_cons, hpk]
      rw [hd, ih, visGet_cons]
      by_cases h : j = k
      · rw [if_pos h, if_pos h]
      · rw [if_neg h, if_neg h, if_neg (by omega : ¬(p.1 = j))]
    · have hd : visDelete (p :: rest) k = p :: visDelete rest k := by
        simp [visDelete, List.filter_cons, hpk]
      rw [hd, visGet_cons, ih, visGet_cons]
      by_cases hpj : p.1 = j
      · rw [if_pos hpj, if_pos hpj, if_neg (by omega : ¬(j = k))]
      · rw [if_neg hpj, if_neg hpj]

/-- Effect of one whole intersection batch on the cache, per line: the last
entry of the batch for that line decides (inserted/updated when
intersecting, removed when not); untouched lines keep their old binding. -/
theorem foldIntersection_get (entries : List IntersectionEntry) (m : VisMap)
    (l : Int) :
    visGet (entries.foldl handleIntersectionStep m) l =
      (match lastEntryFor l entries with
        | some e =>
          if e.isIntersecting then some ⟨e.ratio, e.top, e.bottom⟩ else none
        | none => visGet m l) := by
  induction entries generalizing m with
  | nil => rfl
  | cons e rest ih =>
    rw [List.foldl_cons, ih (handleIntersectionStep m e)]
    simp only [lastEntryFor]
    cases hrest : lastEntryFor l rest with
    | some e' => rfl
    | none =>
      unfold handleIntersectionStep
      by_cases hl : e.line = l
      · by_cases hi : e.isIntersecting
        · simp [hl, hi, visGet_visSet]
        · simp [hl, hi, visGet_visDelete]
      · by_cases hi : e.isIntersecting
        · simp [hl, hi, visGet_visSet, Ne.symm hl]
        · simp [hl, hi, visGet_visDelete, Ne.symm hl]

/-- C9: an intersection batch only updates the visibility cache.  The
handler emits no message, leaves the lock, `CurrentTopLine`, the enabled
flag and both timers untouched, and rewrites `visibleElements` pointwise:
for each line, the last batch entry for that line decides (its latest
`ratio`/`top`/`bottom` when intersecting, removal when not), and lines
absent from the batch keep their previous record. -/
theorem C9_handleIntersection_only_updates_cache
    (entries : List IntersectionEntry) (s : RenderState) :
    (handleIntersection entries s).2 = []
    ∧ (handleIntersection entries s).1.isSyncing = s.isSyncing
    ∧ (handleIntersection entries s).1.syncSource = s.syncSource
    ∧ (handleIntersection entries s).1.currentTopLine = s.currentTopLine
    ∧ (handleIntersection entries s).1.isEnabled = s.isEnabled
    ∧ (handleIntersection entries s).1.syncTimeout = s.syncTimeout
    ∧ (handleIntersection entries s).1.scrollTimeout = s.scrollTimeout
    ∧ ∀ l : Int,
        visGet (handleIntersection entries s).1.visibleElements l =
          (match lastEntryFor l entries with
            | some e =>
              if e.isIntersecting then some ⟨e.ratio, e.top, e.bottom⟩ else none
            | none => visGet s.visibleElements l) := by
  refine ⟨rfl, rfl, rfl, rfl, rfl, rfl, rfl, ?_⟩
  intro l
  exact foldIntersection_get entries s.visibleElements l

/-! ## Helper lemmas for the lock-expiry bound -/

/-- Abstract preservation step, host side: a transition that keeps the lock
fields, or releases the lock, or arms the release timer at `now + 30` while
not newly scheduling a timer (`hnr`), preserves `hostLockOk`. -/
theorem hostLockOk_step (E now : Int) (s sNext : HostState)
    (hnr : sNext.syncTimeout = s.syncTimeout ∨ sNext.syncTimeout = none)
    (hok : hostLockOk E s)
    (hc : (sNext.syncTimeout = s.syncTimeout ∧ sNext.isSyncing = s.isSyncing
            ∧ sNext.syncSource = s.syncSource)
        ∨ (sNext.isSyncing = false ∧ sNext.syncSource = none
            ∧ (sNext.syncTimeout = s.syncTimeout ∨ sNext.syncTimeout = none))
        ∨ sNext.syncTimeout = some (now + SYNC_BLOCK_MS)) :
    hostLockOk E sNext := by
  rcases hc with ⟨ht, hi, hs⟩ | ⟨hi, hs, ht⟩ | ht
  · rcases hok with h | ⟨h1, h2, h3⟩
    · exact Or.inl (ht.trans h)
    · exact Or.inr ⟨hi.trans h1, hs.trans h2, ht.trans h3⟩
  · rcases ht with ht | ht
    · rcases hok with h | ⟨_, _, h3⟩
      · exact Or.inl (ht.trans h)
      · exact Or.inr ⟨hi, hs, ht.trans h3⟩
    · exact Or.inr ⟨hi, hs, ht⟩
  · rcases hnr with hnr | hnr
    · rcases hok with h | ⟨_, _, h3⟩
      · exact Or.inl (hnr.trans h)
      · rw [hnr, h3] at ht
        exact absurd ht (by simp)
    · rw [hnr] at ht
      exact absurd ht (by simp)

/-- Abstract preservation step, render side. -/
theorem renderLockOk_step (E now : Int) (s sNext : RenderState)
    (hnr : sNext.syncTimeout = s.syncTimeout ∨ sNext.syncTimeout = none)
    (hok : renderLockOk E s)
    (hc : (sNext.syncTimeout = s.syncTimeout ∧ sNext.isSyncing = s.isSyncing
            ∧ sNext.syncSource = s.syncSource)
        ∨ (sNext.isSyncing = false ∧ sNext.syncSource = none
            ∧ (sNext.syncTimeout = s.syncTimeout ∨ sNext.syncTimeout = none))
        ∨ sNext.syncTimeout = some (now + SYNC_BLOCK_MS)) :
    renderLockOk E sNext := by
  rcases hc with ⟨ht, hi, hs⟩ | ⟨hi, hs, ht⟩ | ht
  · rcases hok with h | ⟨h1, h2, h3⟩
    · exact Or.inl (ht.trans h)
    · exact Or.inr ⟨hi.trans h1, hs.trans h2, ht.trans h3⟩
  · rcases ht with ht | ht
    · rcases hok with h | ⟨_, _, h3⟩
      · exact Or.inl (ht.trans h)
      · exact Or.inr ⟨hi, hs, ht.trans h3⟩
    · exact Or.inr ⟨hi, hs, ht⟩
  · rcases hnr with hnr | hnr
    · rcases hok with h | ⟨_, _, h3⟩
      · exact Or.inl (hnr.trans h)
      · rw [hnr, h3] at ht
        exact absurd ht (by simp)
    · rw [hnr] at ht
      exact absurd ht (by simp)

/-- Every host event either keeps the lock fields, releases the lock, or
arms the release timer for `now + 30`. -/
theorem hostStepE_cases (now : Int) (s : HostState) (e : HostEvent) :
    ((hostStepE now s e).syncTimeout = s.syncTimeout
      ∧ (hostStepE now s e).isSyncing = s.isSyncing
      ∧ (hostStepE now s e).syncSource = s.syncSource)
    ∨ ((hostStepE now s e).isSyncing = false
        ∧ (hostStepE now s e).syncSource = none
        ∧ ((hostStepE now s e).syncTimeout = s.syncTimeout
            ∨ (hostStepE now s e).syncTimeout = none))
    ∨ (hostStepE now s e).syncTimeout = some (now + SYNC_BLOCK_MS) := by
  cases e with
  | enable => exact Or.inl ⟨rfl, rfl, rfl⟩
  | disable => exact Or.inr (Or.inl ⟨rfl, rfl, Or.inr rfl⟩)
  | lockFire =>
    cases h : s.syncTimeout with
    | none =>
      have hstep : hostStepE now s HostEvent.lockFire = s := by
        simp [hostStepE, hostFireLockTimer, h]
      rw [hstep]
      exact Or.inl ⟨h, rfl, rfl⟩
    | some ex =>
      by_cases ht : ex ≤ now
      · have hstep : hostStepE now s HostEvent.lockFire
            = { s with isSyncing := false, syncSource := none,
                       syncTimeout := none } := by
          simp [hostStepE, hostFireLockTimer, h, ht]
        rw [hstep]
        exact Or.inr (Or.inl ⟨rfl, rfl, Or.inr rfl⟩)
      · have hstep : hostStepE now s HostEvent.lockFire = s := by
          simp [hostStepE, hostFireLockTimer, h, ht]
        rw [hstep]
        exact Or.inl ⟨h, rfl, rfl⟩
  | editorScroll d ed =>
    by_cases h1 : s.isEnabled
    · by_cases h2 : ed.docId = d
      · by_cases h3 : s.isSyncing = true ∧ s.syncSource = some SyncSource.preview
        · have hstep : hostStepE now s (HostEvent.editorScroll d ed) = s := by
            simp [hostStepE, handleEditorScroll, h1, h2, h3]
          rw [hstep]
          exact Or.inl ⟨rfl, rfl, rfl⟩
        · cases hvr : ed.visibleRanges with
          | nil =>
            have hstep : hostStepE now s (HostEvent.editorScroll d ed) = s := by
              simp [hostStepE, handleEditorScroll, h1, h2, h3, hvr]
            rw [hstep]
            exact Or.inl ⟨rfl, rfl, rfl⟩
          | cons tl tlrest =>
            by_cases h4 : tl = s.currentLine
            · have hstep : hostStepE now s (HostEvent.editorScroll d ed) = s := by
                simp [hostStepE, handleEditorScroll, h1, h2, h3, hvr, h4]
              rw [hstep]
              exact Or.inl ⟨rfl, rfl, rfl⟩
            · refine Or.inr (Or.inr ?_)
              have hstep : hostStepE now s (HostEvent.editorScroll d ed)
                  = { s with currentLine := tl, isSyncing := true,
                             syncSource := some SyncSource.editor,
                             syncTimeout := some (now + SYNC_BLOCK_MS) } := by
                simp [hostStepE, handleEditorScroll, syncToPreview,
                      h1, h2, h3, hvr, h4]
              rw [hstep]
      · have hstep : hostStepE now s (HostEvent.editorScroll d ed) = s := by
          simp [hostStepE, handleEditorScroll, h1, h2]
        rw [hstep]
        exact Or.inl ⟨rfl, rfl, rfl⟩
    · have hstep : hostStepE now s (HostEvent.editorScroll d ed) = s := by
        simp [hostStepE, handleEditorScroll, h1]
      rw [hstep]
      exact Or.inl ⟨rfl, rfl, rfl⟩
  | inbound l f r =>
    by_cases hg : s.isSyncing = true ∧ s.syncSource = some SyncSource.editor
    · have hstep : hostStepE now s (HostEvent.inbound l f r) = s := by
        simp [hostStepE, syncToEditor, hg]
      rw [hstep]
      exact Or.inl ⟨rfl, rfl, rfl⟩
    · cases f with
      | none =>
        have hstep : hostStepE now s (HostEvent.inbound l none r)
            = { s with isSyncing := false, syncSource := none } := by
          simp [hostStepE, syncToEditor, hg]
        rw [hstep]
        exact Or.inr (Or.inl ⟨rfl, rfl, Or.inl rfl⟩)
      | some ed =>
        refine Or.inr (Or.inr ?_)
        simp [hostStepE, syncToEditor, hg]

/-- `syncScrollToEditor` either leaves the state alone or arms the release
timer for `now + 30`. -/
theorem syncScrollToEditor_lock_cases (v : Bool) (now : Int)
    (s : RenderState) :
    (syncScrollToEditor v now s).1 = s
    ∨ (syncScrollToEditor v now s).1.syncTimeout = some (now + SYNC_BLOCK_MS) := by
  unfold syncScrollToEditor
  cases h : getTopVisibleLine s with
  | none => exact Or.inl rfl
  | some tl =>
    by_cases he : tl = s.currentTopLine
    · simp [he]
    · right
      simp [he, sendScrollMessage]

/-- Every render event either keeps the lock fields, releases the lock, or
arms the release timer for `now + 30`. -/
theorem renderStepE_cases (now : Int) (s : RenderState) (e : RenderEvent) :
    ((renderStepE now s e).syncTimeout = s.syncTimeout
      ∧ (renderStepE now s e).isSyncing = s.isSyncing
      ∧ (renderStepE now s e).syncSource = s.syncSource)
    ∨ ((renderStepE now s e).isSyncing = false
        ∧ (renderStepE now s e).syncSource = none
        ∧ ((renderStepE now s e).syncTimeout = s.syncTimeout
            ∨ (renderStepE now s e).syncTimeout = none))
    ∨ (renderStepE now s e).syncTimeout = some (now + SYNC_BLOCK_MS) := by
  cases e with
  | enable => exact Or.inl ⟨rfl, rfl, rfl⟩
  | disable => exact Or.inr (Or.inl ⟨rfl, rfl, Or.inr rfl⟩)
  | intersection es => exact Or.inl ⟨rfl, rfl, rfl⟩
  | lockFire =>
    cases h : s.syncTimeout with
    | none =>
      have hstep : renderStepE now s RenderEvent.lockFire = s := by
        simp [renderStepE, renderFireLockTimer, h]
      rw [hstep]
      exact Or.inl ⟨h, rfl, rfl⟩
    | some ex =>
      by_cases ht : ex ≤ now
      · have hstep : renderStepE now s RenderEvent.lockFire
            = { s with isSyncing := false, syncSource := none,
                       syncTimeout := none } := by
          simp [renderStepE, renderFireLockTimer, h, ht]
        rw [hstep]
        exact Or.inr (Or.inl ⟨rfl, rfl, Or.inr rfl⟩)
      · have hstep : renderStepE now s RenderEvent.lockFire = s := by
          simp [renderStepE, renderFireLockTimer, h, ht]
        rw [hstep]
        exact Or.inl ⟨h, rfl, rfl⟩
  | scroll v =>
    by_cases h1 : s.isEnabled
    · by_cases h2 : s.isSyncing = true ∧ s.syncSource = some SyncSource.editor
      · have hstep : renderStepE now s (RenderEvent.scroll v) = s := by
          simp [renderStepE, handleScroll, h1, h2]
        rw [hstep]
        exact Or.inl ⟨rfl, rfl, rfl⟩
      · by_cases h3 : s.scrollTimeout = none
        · rcases syncScrollToEditor_lock_cases v now s with hA | hC
          · refine Or.inl ⟨?_, ?_, ?_⟩ <;>
              simp [renderStepE, handleScroll, h1, h2, h3, hA]
          · refine Or.inr (Or.inr ?_)
            simp [renderStepE, handleScroll, h1, h2, h3, hC]
        · refine Or.inl ⟨?_, ?_, ?_⟩ <;>
            simp [renderStepE, handleScroll, h1, h2, h3]
    · have hstep : renderStepE now s (RenderEvent.scroll v) = s := by
        simp [renderStepE, handleScroll, h1]
      rw [hstep]
      exact Or.inl ⟨rfl, rfl, rfl⟩
  | debounceFire v =>
    rcases syncScrollToEditor_lock_cases v now { s with scrollTimeout := none }
      with hA | hC
    · have hstep : renderStepE now s (RenderEvent.debounceFire v)
          = { s with scrollTimeout := none } := by
        simp only [renderStepE, fireScrollDebounce]
        exact hA
      rw [hstep]
      exact Or.inl ⟨rfl, rfl, rfl⟩
    · exact Or.inr (Or.inr hC)
  | inbound l dom =>
    by_cases h1 : s.isEnabled
    · by_cases h2 : s.isSyncing = true ∧ s.syncSource = some SyncSource.preview
      · have hstep : renderStepE now s (RenderEvent.inbound l dom) = s := by
          simp [renderStepE, scrollToLine, h1, h2]
        rw [hstep]
        exact Or.inl ⟨rfl, rfl, rfl⟩
      · by_cases h3 : l ∈ dom
        · refine Or.inr (Or.inr ?_)
          simp [renderStepE, scrollToLine, h1, h2, h3]
        · have hstep : renderStepE now s (RenderEvent.inbound l dom) = s := by
            simp [renderStepE, scrollToLine, h1, h2, h3]
          rw [hstep]
          exact Or.inl ⟨rfl, rfl, rfl⟩
    · have hstep : renderStepE now s (RenderEvent.inbound l dom) = s := by
        simp [renderStepE, scrollToLine, h1]
      rw [hstep]
      exact Or.inl ⟨rfl, rfl, rfl⟩

/-- The invariant survives a whole trace of non-rearming host events. -/
theorem hostRun_lockOk (E : Int) (evs : List (Int × HostEvent)) :
    ∀ s : HostState, hostLockOk E s → hostNoRearmRun s evs →
      hostLockOk E (hostRun s evs) := by
  induction evs with
  | nil => exact fun s hok _ => hok
  | cons p rest ih =>
    intro s hok hnr
    exact ih (hostStepE p.1 s p.2)
      (hostLockOk_step E p.1 s (hostStepE p.1 s p.2) hnr.1 hok
        (hostStepE_cases p.1 s p.2)) hnr.2

/-- The invariant survives a whole trace of non-rearming render events. -/
theorem renderRun_lockOk (E : Int) (evs : List (Int × RenderEvent)) :
    ∀ s : RenderState, renderLockOk E s → renderNoRearmRun s evs →
      renderLockOk E (renderRun s evs) := by
  induction evs with
  | nil => exact fun s hok _ => hok
  | cons p rest ih =>
    intro s hok hnr
    exact ih (renderStepE p.1 s p.2)
      (renderLockOk_step E p.1 s (renderStepE p.1 s p.2) hnr.1 hok
        (renderStepE_cases p.1 s p.2)) hnr.2

/-- Firing the due release timer on a state satisfying the invariant
yields a released lock. -/
theorem hostFireLockTimer_releases (E t : Int) (s : HostState)
    (hok : hostLockOk E s) (ht : E ≤ t) :
    (hostFireLockTimer t s).isSyncing = false
    ∧ (hostFireLockTimer t s).syncSource = none := by
  rcases hok with h | ⟨h1, h2, h3⟩
  · simp [hostFireLockTimer, h, ht]
  · simp [hostFireLockTimer, h3, h1, h2]

/-- Render-side analogue of `hostFireLockTimer_releases`. -/
theorem renderFireLockTimer_releases (E t : Int) (s : RenderState)
    (hok : renderLockOk E s) (ht : E ≤ t) :
    (renderFireLockTimer t s).isSyncing = false
    ∧ (renderFireLockTimer t s).syncSource = none := by
  rcases hok with h | ⟨h1, h2, h3⟩
  · simp [renderFireLockTimer, h, ht]
  · simp [renderFireLockTimer, h3, h1, h2]
/-- C8: lock-expiry bound.  (i) Every arming operation on either side —
host outbound `syncToPreview`, host inbound `syncToEditor` with an editor
found, render outbound `sendScrollMessage`, render inbound `scrollToLine`
with a matching node — schedules the release timer for exactly
`now + SYNC_BLOCK_MS` (30 ms).  (ii) With a release timer pending for
`T + SYNC_BLOCK_MS` and any trace of further events none of which
(re-)arms the lock, the timer's firing at `T + SYNC_BLOCK_MS` leaves the
lock of that side released (`active = false`, `source = none`) — so
subsequent natural events are no longer suppressed by the lock guards. -/
theorem C8_lock_released_by_block_window
    (line now : Int) (s : HostState)
    (lineI nowI : Int) (ed : Editor) (rt : Bool) (sI : HostState)
    (hI : ¬(sI.isSyncing = true ∧ sI.syncSource = some SyncSource.editor))
    (v : Bool) (lineM nowM : Int) (rM : RenderState)
    (lineS : Int) (dom : List Int) (nowS : Int) (rS : RenderState)
    (hSen : rS.isEnabled = true)
    (hSlock : ¬(rS.isSyncing = true ∧ rS.syncSource = some SyncSource.preview))
    (hSdom : lineS ∈ dom)
    (T : Int) (sT : HostState) (evs : List (Int × HostEvent))
    (hT : sT.syncTimeout = some (T + SYNC_BLOCK_MS))
    (hNR : hostNoRearmRun sT evs)
    (TR : Int) (rT : RenderState) (evsR : List (Int × RenderEvent))
    (hTR : rT.syncTimeout = some (TR + SYNC_BLOCK_MS))
    (hNRR : renderNoRearmRun rT evsR) :
    (syncToPreview line now s).1.syncTimeout = some (now + SYNC_BLOCK_MS)
    ∧ (syncToEditor lineI (some ed) rt nowI sI).1.syncTimeout
        = some (nowI + SYNC_BLOCK_MS)
    ∧ (sendScrollMessage v lineM nowM rM).1.syncTimeout
        = some (nowM + SYNC_BLOCK_MS)
    ∧ (scrollToLine lineS dom nowS rS).1.syncTimeout
        = some (nowS + SYNC_BLOCK_MS)
    ∧ (hostFireLockTimer (T + SYNC_BLOCK_MS) (hostRun sT evs)).isSyncing = false
    ∧ (hostFireLockTimer (T + SYNC_BLOCK_MS) (hostRun sT evs)).syncSource = none
    ∧ (renderFireLockTimer (TR + SYNC_BLOCK_MS)
        (renderRun rT evsR)).isSyncing = false
    ∧ (renderFireLockTimer (TR + SYNC_BLOCK_MS)
        (renderRun rT evsR)).syncSource = none := by
  have hHost := hostFireLockTimer_releases (T + SYNC_BLOCK_MS)
    (T + SYNC_BLOCK_MS) (hostRun sT evs)
    (hostRun_lockOk (T + SYNC_BLOCK_MS) evs sT (Or.inl hT) hNR) le_rfl
  have hRender := renderFireLockTimer_releases (TR + SYNC_BLOCK_MS)
    (TR + SYNC_BLOCK_MS) (renderRun rT evsR)
    (renderRun_lockOk (TR + SYNC_BLOCK_MS) evsR rT (Or.inl hTR) hNRR) le_rfl
  refine ⟨rfl, ?_, rfl, ?_, hHost.1, hHost.2, hRender.1, hRender.2⟩
  · unfold syncToEditor
    rw [if_neg hI]
  · unfold scrollToLine
    simp [hSen, hSlock, hSdom]

/-- C8 witness. -/
theorem C8_lock_released_by_block_window_witness :
    (syncToPreview 5 0 hostFresh).1.syncTimeout = some (0 + SYNC_BLOCK_MS)
    ∧ (syncToEditor 5 (some edTen) false 0 hostFresh).1.syncTimeout
        = some (0 + SYNC_BLOCK_MS)
    ∧ (sendScrollMessage true 5 0 renderAt5).1.syncTimeout
        = some (0 + SYNC_BLOCK_MS)
    ∧ (scrollToLine 5 [5] 0 renderAt5).1.syncTimeout
        = some (0 + SYNC_BLOCK_MS)
    ∧ (hostFireLockTimer (0 + SYNC_BLOCK_MS) (hostRun hostArmed [])).isSyncing
        = false
    ∧ (hostFireLockTimer (0 + SYNC_BLOCK_MS) (hostRun hostArmed [])).syncSource
        = none
    ∧ (renderFireLockTimer (0 + SYNC_BLOCK_MS)
        (renderRun renderArmed [])).isSyncing = false
    ∧ (renderFireLockTimer (0 + SYNC_BLOCK_MS)
        (renderRun renderArmed [])).syncSource = none :=
  C8_lock_released_by_block_window 5 0 hostFresh 5 0 edTen false hostFresh
    (by decide) true 5 0 renderAt5 5 [5] 0 renderAt5 rfl (by decide)
    (by decide) 0 hostArmed [] (by decide) trivial 0 renderArmed []
    (by decide) trivial
